import Mathlib

/-!
Verification of the ddf mount-enumeration and usage-probing subsystem
(src/ddf/src/fsext.rs, src/ddf/src/main.rs, src/ddf/src/settings.rs),
shallowly embedded for the Linux/Android code paths.

Conventions of the embedding:
- Rust `Option<T>` is `Option T`; a Rust panic (a failed `unwrap` or an
  out-of-bounds index) is modelled as the outer `none` of an
  `Option (Option T)` result, so `MountInfo.new` returns
  `none` = panic, `some none` = `None`, `some (some m)` = `Some(m)`.
- Machine integers are `Nat` (unsigned) or `Int` (signed) with explicit
  `% 2 ^ w` where a cast truncates.
- The operating system is passed in as explicit data: the mount-table
  files as optional lists of line-read results, the statfs buffer as an
  optional record.
-/

namespace Ddf

def LINUX_MTAB : String := "/etc/mtab"

def LINUX_MOUNTINFO : String := "/proc/self/mountinfo"

/-- Canonical mount record (fsext.rs, `struct MountInfo`): `dev_name`,
`fs_type`, `mount_dir`. -/
structure MountInfo where
  dev_name : String
  fs_type : String
  mount_dir : String
deriving Repr, DecidableEq

/-- Rust `Iterator::position(p)`: index of the first element satisfying `p`. -/
def position (p : String → Bool) : List String → Option Nat
  | [] => none
  | a :: rest => if p a then some 0 else (position p rest).map (· + 1)

def FIELDS_OFFSET : Nat := 6

/-- `MountInfo::new(file_name, raw)` (fsext.rs lines 117-147), Linux branch.
For a `/proc/self/mountinfo` line it scans `raw[6..]` for the first `"-"`
token (`position(...).unwrap()`, panic when absent), then reads the
filesystem type right after the separator, the device name after that and
the mount directory at token 4.  For an `/etc/mtab` line it reads tokens
0, 2 and 1.  Any out-of-bounds index is a panic (outer `none`). -/
def MountInfo.new (file_name : String) (raw : List String) :
    Option (Option MountInfo) :=
  if file_name = LINUX_MOUNTINFO then
    match position (fun c => c == "-") (raw.drop FIELDS_OFFSET) with
    | none => none
    | some pos =>
      let after_fields := pos + FIELDS_OFFSET + 1
      match raw[after_fields + 1]?, raw[after_fields]?, raw[4]? with
      | some dev_name, some fs_type, some mount_dir =>
          some (some ⟨dev_name, fs_type, mount_dir⟩)
      | _, _, _ => none
  else if file_name = LINUX_MTAB then
    match raw[0]?, raw[2]?, raw[1]? with
    | some dev_name, some fs_type, some mount_dir =>
        some (some ⟨dev_name, fs_type, mount_dir⟩)
    | _, _, _ => none
  else
    some none

/-- One result of `BufReader::lines()` in `read_fs_list` (fsext.rs line
338): `ok tokens` is a line that was read successfully, carried here
already whitespace-tokenized as `line.split_whitespace().collect()`
(fsext.rs line 341); `err` is a failed read (`Err(e)`). -/
inductive ReadLine where
  | ok (tokens : List String)
  | err
deriving Repr, DecidableEq

/-- `.map_while(Result::ok)` (fsext.rs line 339): take lines up to, and not
including, the first read error; everything after is dropped. -/
def mapWhileOk : List ReadLine → List (List String)
  | [] => []
  | .ok tks :: rest => tks :: mapWhileOk rest
  | .err :: _ => []

/-- `.filter_map(|line| MountInfo::new(file_name, &raw_data))` (fsext.rs
lines 340-343) with panic propagation: a panicking line aborts the whole
parse (`none`), a `None` line is skipped, a `Some` line is kept in order. -/
def parseTable (file_name : String) : List (List String) → Option (List MountInfo)
  | [] => some []
  | tks :: rest =>
    match MountInfo.new file_name tks with
    | none => none
    | some none => parseTable file_name rest
    | some (some m) => (parseTable file_name rest).map (m :: ·)

/-- State of the two Linux mount-table files: `none` means `File::open`
fails for that path, `some lines` is the file's content as line reads. -/
structure MountTables where
  mountinfo : Option (List ReadLine)
  mtab : Option (List ReadLine)
deriving Repr, DecidableEq

/-- Outcome of `read_fs_list()`: `ok` is `Ok(mounts)`, `ioFailure` is the
`Err` propagated by `?` when neither table file opens, `panic` is a
process abort raised while parsing a line. -/
inductive FsListResult where
  | ok (mounts : List MountInfo)
  | ioFailure
  | panic
deriving Repr, DecidableEq

/-- Parsing of one successfully opened table file: the reader pipeline of
fsext.rs lines 335-345 applied to its line reads. -/
def parseOpenFile (file_name : String) (ls : List ReadLine) : FsListResult :=
  match parseTable file_name (mapWhileOk ls) with
  | none => .panic
  | some ms => .ok ms

/-- `read_fs_list()` (fsext.rs lines 329-346), Linux/Android branch:
open `/proc/self/mountinfo`, or else `/etc/mtab`, and propagate the open
error with `?` when both fail; then run the line pipeline on the file
that opened. -/
def read_fs_list (t : MountTables) : FsListResult :=
  match t.mountinfo with
  | some ls => parseOpenFile LINUX_MOUNTINFO ls
  | none =>
    match t.mtab with
    | some ls => parseOpenFile LINUX_MTAB ls
    | none => .ioFailure

/-- The `(dev_name, fs_type, mount_dir)` tuples of a successful
enumeration. -/
def mountTuples (r : FsListResult) : Option (List (String × String × String)) :=
  match r with
  | .ok ms => some (ms.map (fun m => (m.dev_name, m.fs_type, m.mount_dir)))
  | _ => none

/-- The relevant fields of `libc::statfs` on 64-bit Linux:
`f_bsize : i64` (signed), `f_blocks`, `f_bfree`, `f_avail : u64`. -/
structure StatFs where
  f_bsize : Int
  f_blocks : Nat
  f_bfree : Nat
  f_bavail : Nat
deriving Repr, DecidableEq

/-- `struct FsUsage` as declared in this crate (fsext.rs lines 422-428):
only `blocksize`, `blocks`, `bfree`, `bavail`, all `u64`. -/
structure FsUsage where
  blocksize : Nat
  blocks : Nat
  bfree : Nat
  bavail : Nat
deriving Repr, DecidableEq

/-- `FsUsage::new(statvfs)` (fsext.rs lines 432-443), the
`target_pointer_width = "64"` non-BSD branch compiled on Linux:
`blocksize` is `statvfs.f_bsize as u64` (an `i64 → u64` cast, i.e. the
value mod `2^64`), the block counters are copied unchanged.  No field is
validated. -/
def FsUsage.new (statvfs : StatFs) : FsUsage :=
  { blocksize := (statvfs.f_bsize % ((2 : Int) ^ 64)).toNat
    blocks := statvfs.f_blocks
    bfree := statvfs.f_bfree
    bavail := statvfs.f_bavail }

/-- `CString::new` fails exactly when the path holds an interior NUL
byte. -/
def hasNul (path : String) : Bool := path.data.contains (Char.ofNat 0)

/-- `statfs(path)` (fsext.rs lines 549-573): build the `CString` (error on
interior NUL), call `statfs_fn`; `os` is the kernel's answer — `some
buffer` when the call returns 0, `none` when it returns non-zero, in which
case the errno message `errnoMsg` is the error. -/
def statfs (path : String) (os : Option StatFs) (errnoMsg : String) :
    Except String StatFs :=
  if hasNul path then .error "nul byte found in provided data"
  else
    match os with
    | some buffer => .ok buffer
    | none => .error errnoMsg

/-- The usage probe of spec section 4.3: `statfs` followed by
`FsUsage::new` on the returned buffer. -/
def probe_usage (path : String) (os : Option StatFs) (errnoMsg : String) :
    Except String FsUsage :=
  (statfs path os errnoMsg).map FsUsage.new

/-- The `bavail_top_bit_set` computation of the 32-bit-counter branch of
`FsUsage::new` (fsext.rs line 453):
`((statvfs.f_bavail as u64) & (1u64.rotate_right(1))) != 0` where
`f_bavail : u32`, so the cast zero-extends (`x % 2^32` is the raw 32-bit
value) and `1u64.rotate_right(1) = 2^63`. -/
def bavail_top_bit_set_32 (f_bavail : Nat) : Bool :=
  ((f_bavail % 2 ^ 32) &&& ((1 : Nat) <<< 63)) != 0

/-- What the spec says the flag should be: the most significant bit of the
raw 32-bit counter (bit 31), i.e. the sign bit under a signed
reinterpretation. -/
def spec_bavail_top_bit_set_32 (f_bavail : Nat) : Bool :=
  (f_bavail % 2 ^ 32).testBit 31

/-- Exclusion rules (settings.rs, `enum Exclusion`). -/
inductive Exclusion where
  | MountDirStartsWith (name : String)
  | FsType (typ : String)
deriving Repr, DecidableEq

/-- Rust `str::starts_with(pat)` for a string pattern: character-wise
prefix test. -/
def strStartsWith (s pat : String) : Bool := pat.data.isPrefixOf s.data

/-- Modelled from the spec: `Filesystem` (src/ddf/src/filesystem.rs is not
under src/) pairs one `MountInfo` with its `FsUsage` (spec section 3). -/
structure Filesystem where
  mount_info : MountInfo
  usage : FsUsage
deriving Repr, DecidableEq

/-- Modelled from the spec: `Filesystem::new` (filesystem.rs is not under
src/) pairs a mount with the usage probe's result for its `mount_dir`;
`none` when the probe fails (spec sections 2 and 4.4).  The probe is
passed in as the environment. -/
def Filesystem.new (probe : String → Option FsUsage) (m : MountInfo) :
    Option Filesystem :=
  (probe m.mount_dir).map (fun u => ⟨m, u⟩)

/-- Modelled from the spec: the containing-mount resolution of
`Filesystem::from_path` (filesystem.rs is not under src/) — select the
mount whose `mount_dir` is the longest prefix of the path, the later
entry winning ties (spec sections 4.4 and 9). -/
def bestMount (mounts : List MountInfo) (path : String) : Option MountInfo :=
  mounts.foldl
    (fun acc m =>
      if strStartsWith path m.mount_dir then
        match acc with
        | none => some m
        | some b =>
          if b.mount_dir.length ≤ m.mount_dir.length then some m else some b
      else acc)
    none

/-- Modelled from the spec: `Filesystem::from_path` (filesystem.rs is not
under src/) resolves a path to its containing mount and probes it;
canonicalization is modelled as the identity on an already canonical
path (spec section 4.4). -/
def Filesystem.from_path (probe : String → Option FsUsage)
    (mounts : List MountInfo) (path : String) : Option Filesystem :=
  (bestMount mounts path).bind (Filesystem.new probe)

/-- The exclusion predicate of `main()` (main.rs lines 41-47). -/
def excludedBy (rule : Exclusion) (fs : Filesystem) : Bool :=
  match rule with
  | .MountDirStartsWith name => strStartsWith fs.mount_info.mount_dir name
  | .FsType typ => fs.mount_info.fs_type == typ

/-- The filesystem selection of `main()` (main.rs lines 30-49): with
explicit `files`, resolve each path and keep the hits; with no files,
pair every mount with its usage, keep only `usage.blocks > 0`, then apply
the configured exclusion rules. -/
def mainFilesystems (probe : String → Option FsUsage)
    (mounts : List MountInfo) (files : Option (List String))
    (exclude : List Exclusion) : List Filesystem :=
  match files with
  | some fs => fs.filterMap (fun file => Filesystem.from_path probe mounts file)
  | none =>
      ((mounts.filterMap (fun m => Filesystem.new probe m)).filter
            (fun fs => fs.usage.blocks > 0)).filter
        (fun fs => ! exclude.any (fun rule => excludedBy rule fs))

/-! ### Helper lemmas -/

theorem position_append_of_forall (p : String → Bool) (l1 l2 : List String)
    (h : ∀ x ∈ l1, p x = false) (a : String) (ha : p a = true) :
    position p (l1 ++ a :: l2) = some l1.length := by
  induction l1 with
  | nil => simp [position, ha]
  | cons hd tl ih =>
    have hhd : p hd = false := h hd (List.mem_cons_self hd tl)
    have ih' := ih (fun x hx => h x (List.mem_cons_of_mem hd hx))
    simp [position, hhd, ih']

theorem position_eq_none_of_forall (p : String → Bool) (l : List String)
    (h : ∀ x ∈ l, p x = false) : position p l = none := by
  induction l with
  | nil => rfl
  | cons hd tl ih =>
    have hhd : p hd = false := h hd (List.mem_cons_self hd tl)
    simp [position, hhd, ih (fun x hx => h x (List.mem_cons_of_mem hd hx))]

theorem position_isSome_of_mem (p : String → Bool) (l : List String)
    (a : String) (hmem : a ∈ l) (ha : p a = true) :
    (position p l).isSome = true := by
  induction l with
  | nil => simp at hmem
  | cons hd tl ih =>
    by_cases hhd : p hd = true
    · simp [position, hhd]
    · rcases List.mem_cons.mp hmem with rfl | hmem2
      · exact absurd ha hhd
      · have hres := ih hmem2
        cases hpos : position p tl with
        | none => rw [hpos] at hres; simp at hres
        | some k => simp [position, hhd, hpos]

/-! ### C1, C2 -/

/-- C1: a Linux mountinfo line with 0, 1 or 2 optional fields between
token 6 and the first `-` token parses to `fs_type` = the token right
after the `-`, `dev_name` = the token after that, `mount_dir` = token 4. -/
theorem mountinfo_parses_optional_fields
    (a0 a1 a2 a3 a4 a5 ft dn : String) (opts rest : List String)
    (hn : opts.length ≤ 2) (hopt : ∀ x ∈ opts, x ≠ "-") :
    MountInfo.new LINUX_MOUNTINFO
        (a0 :: a1 :: a2 :: a3 :: a4 :: a5 :: (opts ++ "-" :: ft :: dn :: rest)) =
      some (some ⟨dn, ft, a4⟩) := by
  rcases opts with _ | ⟨o1, _ | ⟨o2, _ | ⟨o3, t⟩⟩⟩
  · simp [MountInfo.new, position, FIELDS_OFFSET, LINUX_MOUNTINFO]
  · have h1 : (o1 == "-") = false := beq_eq_false_iff_ne.mpr (hopt o1 (by simp))
    simp [MountInfo.new, position, h1, FIELDS_OFFSET, LINUX_MOUNTINFO]
  · have h1 : (o1 == "-") = false := beq_eq_false_iff_ne.mpr (hopt o1 (by simp))
    have h2 : (o2 == "-") = false := beq_eq_false_iff_ne.mpr (hopt o2 (by simp))
    simp [MountInfo.new, position, h1, h2, FIELDS_OFFSET, LINUX_MOUNTINFO]
  · simp only [List.length_cons] at hn
    omega

/-- C1 witness: the two-optional-fields vector of `test_mountinfo`. -/
theorem mountinfo_parses_optional_fields_witness :
    MountInfo.new LINUX_MOUNTINFO
        ("106" :: "109" :: "253:6" :: "/" :: "/mnt" :: "rw,relatime" ::
          (["master:1", "shared:2"] ++ "-" :: "xfs" :: "/dev/fs0" :: ["rw"])) =
      some (some ⟨"/dev/fs0", "xfs", "/mnt"⟩) :=
  mountinfo_parses_optional_fields "106" "109" "253:6" "/" "/mnt" "rw,relatime"
    "xfs" "/dev/fs0" ["master:1", "shared:2"] ["rw"] (by decide) (by decide)

/-- C2: an mtab line with at least three tokens parses positionally —
`dev_name` = token 0, `mount_dir` = token 1, `fs_type` = token 2 — and
any trailing tokens are ignored. -/
theorem mtab_positional_parse (t0 t1 t2 : String) (rest : List String) :
    MountInfo.new LINUX_MTAB (t0 :: t1 :: t2 :: rest) =
      some (some ⟨t0, t2, t1⟩) := by
  simp [MountInfo.new, LINUX_MTAB, LINUX_MOUNTINFO]

/-! ### C4 -/

theorem new_panics_of_no_separator (raw : List String)
    (h : ∀ x ∈ raw.drop FIELDS_OFFSET, x ≠ "-") :
    MountInfo.new LINUX_MOUNTINFO raw = none := by
  have hpos : position (fun c => c == "-") (raw.drop FIELDS_OFFSET) = none :=
    position_eq_none_of_forall _ _
      (fun x hx => beq_eq_false_iff_ne.mpr (h x hx))
  simp [MountInfo.new, hpos]

theorem parseTable_eq_none_of_mem (f : String) (raw : List String)
    (lines : List (List String)) (hmem : raw ∈ lines)
    (hpanic : MountInfo.new f raw = none) : parseTable f lines = none := by
  induction lines with
  | nil => simp at hmem
  | cons hd tl ih =>
    rcases List.mem_cons.mp hmem with rfl | hmem2
    · simp [parseTable, hpanic]
    · cases hnew : MountInfo.new f hd with
      | none => simp [parseTable, hnew]
      | some o =>
        cases o with
        | none => simp [parseTable, hnew, ih hmem2]
        | some m => simp [parseTable, hnew, ih hmem2]

theorem mapWhileOk_map_ok (lines : List (List String)) :
    mapWhileOk (lines.map ReadLine.ok) = lines := by
  induction lines with
  | nil => rfl
  | cons hd tl ih => simp [mapWhileOk, ih]

/-- C4: a mountinfo line with no `-` token at or after token 6 makes
`MountInfo::new` panic, the panic aborts the whole mount-table parse
(the record is not skipped), and whenever a `-` token is present the
separator search does succeed. -/
theorem missing_separator_aborts_parse (raw : List String)
    (h : ∀ x ∈ raw.drop FIELDS_OFFSET, x ≠ "-")
    (pre post : List (List String)) (mtab : Option (List ReadLine))
    (l : List String) (hl : "-" ∈ l.drop FIELDS_OFFSET) :
    MountInfo.new LINUX_MOUNTINFO raw = none ∧
    parseTable LINUX_MOUNTINFO (pre ++ raw :: post) = none ∧
    read_fs_list ⟨some ((pre ++ raw :: post).map ReadLine.ok), mtab⟩ =
      FsListResult.panic ∧
    (position (fun c => c == "-") (l.drop FIELDS_OFFSET)).isSome = true := by
  have habort : parseTable LINUX_MOUNTINFO (pre ++ raw :: post) = none :=
    parseTable_eq_none_of_mem _ raw _ (by simp)
      (new_panics_of_no_separator raw h)
  refine ⟨new_panics_of_no_separator raw h, habort, ?_, ?_⟩
  · have hmap := mapWhileOk_map_ok (pre ++ raw :: post)
    simp only [read_fs_list, parseOpenFile, hmap, habort]
  · exact position_isSome_of_mem _ _ "-" hl (by simp)

/-- C4 witness: a nine-token mountinfo-style line without the separator
panics and aborts, while the valid line's separator search succeeds. -/
theorem missing_separator_aborts_parse_witness :
    MountInfo.new LINUX_MOUNTINFO
        ["106", "109", "253:6", "/", "/mnt", "rw,relatime", "xfs",
          "/dev/fs0", "rw"] = none ∧
    parseTable LINUX_MOUNTINFO
        ([] ++ ["106", "109", "253:6", "/", "/mnt", "rw,relatime", "xfs",
          "/dev/fs0", "rw"] :: []) = none ∧
    read_fs_list
        ⟨some (([] ++ ["106", "109", "253:6", "/", "/mnt", "rw,relatime",
            "xfs", "/dev/fs0", "rw"] :: []).map ReadLine.ok), none⟩ =
      FsListResult.panic ∧
    (position (fun c => c == "-")
        (["106", "109", "253:6", "/", "/mnt", "rw,relatime", "-", "xfs",
          "/dev/fs0", "rw"].drop FIELDS_OFFSET)).isSome = true :=
  missing_separator_aborts_parse
    ["106", "109", "253:6", "/", "/mnt", "rw,relatime", "xfs", "/dev/fs0",
      "rw"] (by decide) [] [] none
    ["106", "109", "253:6", "/", "/mnt", "rw,relatime", "-", "xfs",
      "/dev/fs0", "rw"] (by decide)

/-! ### C7, C9, C10 -/

theorem parseOpenFile_ne_ioFailure (f : String) (ls : List ReadLine) :
    parseOpenFile f ls ≠ FsListResult.ioFailure := by
  unfold parseOpenFile
  cases parseTable f (mapWhileOk ls) <;> simp

/-- C7: `read_fs_list` parses `/proc/self/mountinfo` when it opens, falls
back to `/etc/mtab` when it does not, and yields the `IOFailure` error
exactly when neither file can be opened. -/
theorem read_fs_list_fallback (t : MountTables) :
    (∀ ls, t.mountinfo = some ls →
        read_fs_list t = parseOpenFile LINUX_MOUNTINFO ls) ∧
    (∀ ls, t.mountinfo = none → t.mtab = some ls →
        read_fs_list t = parseOpenFile LINUX_MTAB ls) ∧
    (read_fs_list t = FsListResult.ioFailure ↔
      t.mountinfo = none ∧ t.mtab = none) := by
  obtain ⟨mi, mt⟩ := t
  cases mi <;> cases mt <;>
    simp [read_fs_list, parseOpenFile_ne_ioFailure]

/-- C7 witness: with both files unopenable the enumeration fails with
`IOFailure`. -/
theorem read_fs_list_fallback_witness :
    read_fs_list ⟨none, none⟩ = FsListResult.ioFailure :=
  (read_fs_list_fallback ⟨none, none⟩).2.2.mpr ⟨rfl, rfl⟩

/-- C9: enumeration is deterministic — two runs over the same mount-table
contents give the same result and the same `(dev_name, fs_type,
mount_dir)` tuple sequence. -/
theorem enumeration_deterministic (t t' : MountTables) (h : t = t') :
    read_fs_list t = read_fs_list t' ∧
    mountTuples (read_fs_list t) = mountTuples (read_fs_list t') := by
  subst h
  exact ⟨rfl, rfl⟩

/-- C9 witness. -/
theorem enumeration_deterministic_witness :
    read_fs_list ⟨none, none⟩ = read_fs_list ⟨none, none⟩ ∧
    mountTuples (read_fs_list ⟨none, none⟩) =
      mountTuples (read_fs_list ⟨none, none⟩) :=
  enumeration_deterministic ⟨none, none⟩ ⟨none, none⟩ rfl

theorem mapWhileOk_ok_append_err (good : List (List String))
    (rest : List ReadLine) :
    mapWhileOk (good.map ReadLine.ok ++ ReadLine.err :: rest) = good := by
  induction good with
  | nil => rfl
  | cons hd tl ih => simp [mapWhileOk, ih]

/-- C10: a read error mid-file truncates the line stream at the first
unreadable line; `read_fs_list` behaves as if the file ended there and
returns a successful result with only the earlier records — the error
never surfaces. -/
theorem read_error_truncates (good : List (List String))
    (rest : List ReadLine) (mtab : Option (List ReadLine)) :
    mapWhileOk (good.map ReadLine.ok ++ ReadLine.err :: rest) = good ∧
    read_fs_list ⟨some (good.map ReadLine.ok ++ ReadLine.err :: rest), mtab⟩ =
      read_fs_list ⟨some (good.map ReadLine.ok), mtab⟩ ∧
    (∀ ms, parseTable LINUX_MOUNTINFO good = some ms →
        read_fs_list
            ⟨some (good.map ReadLine.ok ++ ReadLine.err :: rest), mtab⟩ =
          FsListResult.ok ms) := by
  refine ⟨mapWhileOk_ok_append_err good rest, ?_, ?_⟩
  · simp [read_fs_list, parseOpenFile, mapWhileOk_ok_append_err,
      mapWhileOk_map_ok]
  · intro ms hms
    simp [read_fs_list, parseOpenFile, mapWhileOk_ok_append_err, hms]

/-- C10 witness: one valid line, then a read error — the run succeeds
with just that record. -/
theorem read_error_truncates_witness :
    read_fs_list
        ⟨some ([["106", "109", "253:6", "/", "/mnt", "rw,relatime", "-",
              "xfs", "/dev/fs0", "rw"]].map ReadLine.ok ++
            ReadLine.err :: [ReadLine.err]), none⟩ =
      FsListResult.ok [⟨"/dev/fs0", "xfs", "/mnt"⟩] :=
  (read_error_truncates
      [["106", "109", "253:6", "/", "/mnt", "rw,relatime", "-", "xfs",
        "/dev/fs0", "rw"]] [ReadLine.err] none).2.2
    [⟨"/dev/fs0", "xfs", "/mnt"⟩] (by decide)

/-! ### C3 -/

/-- C3 counterexample: a statfs buffer whose `f_bsize` is 0 yields a
successful probe whose `blocksize` is 0 — the probe does not fail. -/
theorem probe_succeeds_with_zero_blocksize :
    probe_usage "/" (some ⟨0, 100, 50, 40⟩) "os error" =
      Except.ok ⟨0, 100, 50, 40⟩ ∧
    ¬ (0 < (FsUsage.new ⟨0, 100, 50, 40⟩).blocksize) := by
  constructor
  · rfl
  · decide

/-- C3 amended: a successful probe copies the raw `f_bsize` (cast to u64)
into `blocksize` with no positivity check, so `blocksize > 0` holds
exactly when the raw `f_bsize` is nonzero modulo `2^64`; a zero raw
blocksize still probes successfully. -/
theorem probe_blocksize_unchecked (path : String) (os : StatFs) (msg : String)
    (hpath : hasNul path = false) :
    probe_usage path (some os) msg = Except.ok (FsUsage.new os) ∧
    (FsUsage.new os).blocksize = (os.f_bsize % ((2 : Int) ^ 64)).toNat ∧
    (0 < (FsUsage.new os).blocksize ↔ os.f_bsize % ((2 : Int) ^ 64) ≠ 0) := by
  refine ⟨?_, rfl, ?_⟩
  · simp [probe_usage, statfs, hpath]
    rfl
  · have hnn : 0 ≤ os.f_bsize % ((2 : Int) ^ 64) :=
      Int.emod_nonneg _ (by norm_num)
    simp only [FsUsage.new]
    omega

/-- C3 amended witness. -/
theorem probe_blocksize_unchecked_witness :
    probe_usage "/" (some ⟨4096, 10, 5, 4⟩) "os error" =
      Except.ok (FsUsage.new ⟨4096, 10, 5, 4⟩) ∧
    (FsUsage.new ⟨4096, 10, 5, 4⟩).blocksize =
      (((4096 : Int)) % ((2 : Int) ^ 64)).toNat ∧
    (0 < (FsUsage.new ⟨4096, 10, 5, 4⟩).blocksize ↔
      ((4096 : Int)) % ((2 : Int) ^ 64) ≠ 0) :=
  probe_blocksize_unchecked "/" ⟨4096, 10, 5, 4⟩ "os error" (by decide)

/-! ### C5 -/

theorem isPrefixOf_self (l : List Char) : l.isPrefixOf l = true := by
  induction l with
  | nil => rfl
  | cons c t ih => simp [List.isPrefixOf, ih]

theorem strStartsWith_self (s : String) : strStartsWith s s = true :=
  isPrefixOf_self s.data

/-- C5: with no explicit path, `main` drops every filesystem whose usage
has `blocks == 0`; with explicit paths it resolves each path with no
zero-block filter, so a zero-block filesystem is still returned for its
own path. -/
theorem zero_block_filter_scope (probe : String → Option FsUsage)
    (mounts : List MountInfo) (exclude : List Exclusion) :
    (∀ fs ∈ mainFilesystems probe mounts none exclude,
        0 < fs.usage.blocks) ∧
    (∀ files : List String,
        mainFilesystems probe mounts (some files) exclude =
          files.filterMap (Filesystem.from_path probe mounts)) ∧
    (∀ (m : MountInfo) (u : FsUsage), probe m.mount_dir = some u →
        mainFilesystems probe [m] (some [m.mount_dir]) exclude = [⟨m, u⟩]) := by
  refine ⟨?_, fun files => rfl, ?_⟩
  · intro fs hfs
    unfold mainFilesystems at hfs
    have h1 := (List.mem_filter.mp hfs).1
    have h2 := (List.mem_filter.mp h1).2
    simpa using h2
  · intro m u hu
    simp [mainFilesystems, Filesystem.from_path, bestMount, Filesystem.new,
      strStartsWith_self, hu]

/-- C5 witness: a zero-block filesystem explicitly requested by its own
mount path is returned. -/
theorem zero_block_filter_scope_witness :
    mainFilesystems (fun _ => some ⟨4096, 0, 0, 0⟩)
        [⟨"dev", "tmpfs", "/m"⟩] (some ["/m"]) [] =
      [⟨⟨"dev", "tmpfs", "/m"⟩, ⟨4096, 0, 0, 0⟩⟩] :=
  (zero_block_filter_scope (fun _ => some ⟨4096, 0, 0, 0⟩)
      [⟨"dev", "tmpfs", "/m"⟩] []).2.2
    ⟨"dev", "tmpfs", "/m"⟩ ⟨4096, 0, 0, 0⟩ rfl

/-! ### C6 -/

/-- C6: on the 32-bit-counter branch the computed `bavail_top_bit_set`
flag is `false` for every raw 32-bit counter value — the code masks bit
63 of the zero-extended value, which a 32-bit counter can never reach —
while the spec's most-significant-bit flag is `true` at the failing
input `0x80000000`, where the code still yields `false`. -/
theorem bavail_top_bit_set_32_always_false :
    (∀ x : Nat, bavail_top_bit_set_32 x = false) ∧
    spec_bavail_top_bit_set_32 2147483648 = true ∧
    bavail_top_bit_set_32 2147483648 = false := by
  refine ⟨?_, by decide, by decide⟩
  intro x
  unfold bavail_top_bit_set_32
  have hlt : x % 2 ^ 32 < 2 ^ 63 :=
    lt_trans (Nat.mod_lt _ (by norm_num)) (by norm_num)
  have hshift : ((1 : Nat) <<< 63) = 2 ^ 63 := by
    simp [Nat.shiftLeft_eq]
  rw [hshift, Nat.and_two_pow, Nat.testBit_eq_false_of_lt hlt]
  simp

/-! ### C8 -/

theorem parseTable_append (f : String) (l1 l2 : List (List String)) :
    parseTable f (l1 ++ l2) =
      match parseTable f l1, parseTable f l2 with
      | some a, some b => some (a ++ b)
      | _, _ => none := by
  induction l1 with
  | nil =>
    cases h2 : parseTable f l2 <;> simp [parseTable, h2]
  | cons hd tl ih =>
    cases hnew : MountInfo.new f hd with
    | none => simp [parseTable, hnew]
    | some o =>
      cases o with
      | none => simp [parseTable, hnew, ih]
      | some m =>
        simp only [List.cons_append, parseTable, hnew]
        cases h1 : parseTable f tl <;> cases h2 : parseTable f l2 <;>
          simp [ih, h1, h2]

theorem parseTable_eq_filterMap (f : String) (lines : List (List String))
    (ms : List MountInfo) (hok : parseTable f lines = some ms) :
    ms = lines.filterMap (fun tks => (MountInfo.new f tks).bind (fun o => o)) := by
  induction lines generalizing ms with
  | nil =>
    simp only [parseTable, Option.some_inj] at hok
    simp [← hok]
  | cons hd tl ih =>
    cases hnew : MountInfo.new f hd with
    | none => simp [parseTable, hnew] at hok
    | some o =>
      cases o with
      | none =>
        simp only [parseTable, hnew] at hok
        simpa [List.filterMap_cons, hnew] using ih ms hok
      | some m =>
        simp only [parseTable, hnew, Option.map_eq_some'] at hok
        obtain ⟨a, ha, rfl⟩ := hok
        simp [List.filterMap_cons, hnew, ← ih a ha]

/-- C8: the parsed records keep the relative order of the lines they came
from — parsing distributes over concatenation of line blocks in order,
and a successful parse is exactly the in-order `filterMap` of the lines. -/
theorem enumeration_preserves_order (f : String)
    (l1 l2 lines : List (List String)) (ms : List MountInfo)
    (hok : parseTable f lines = some ms) :
    (parseTable f (l1 ++ l2) =
      match parseTable f l1, parseTable f l2 with
      | some a, some b => some (a ++ b)
      | _, _ => none) ∧
    ms = lines.filterMap (fun tks => (MountInfo.new f tks).bind (fun o => o)) :=
  ⟨parseTable_append f l1 l2, parseTable_eq_filterMap f lines ms hok⟩

/-- C8 witness. -/
theorem enumeration_preserves_order_witness :
    (parseTable LINUX_MTAB ([["a", "b", "c"]] ++ [["d", "e", "f"]]) =
      match parseTable LINUX_MTAB [["a", "b", "c"]],
          parseTable LINUX_MTAB [["d", "e", "f"]] with
      | some a, some b => some (a ++ b)
      | _, _ => none) ∧
    [(⟨"a", "c", "b"⟩ : MountInfo)] =
      [["a", "b", "c"]].filterMap
        (fun tks => (MountInfo.new LINUX_MTAB tks).bind (fun o => o)) :=
  enumeration_preserves_order LINUX_MTAB [["a", "b", "c"]] [["d", "e", "f"]]
    [["a", "b", "c"]] [⟨"a", "c", "b"⟩] (by decide)

end Ddf
